import Mathlib

/-
Verification of the concurrency core of the enhance library: the work queue
`enh::queued_process` (queued_process.enh.h) and the periodic notifier
`enh::timer` (timer.enh.h).

The queue is embedded as a small-step interleaving machine: the worker function
`queue_exec_process` is cut into atomic steps at its lock boundaries and shared
reads, giving a program counter `WorkerPC`; the environment (client threads)
contributes `post`, `stop` (stopQueue), `clear` (the body of WaitForQueueStop
after the join) and `startL` (start_queue_process) events.  A schedule is a
list of such labels; `run` folds it over a state.  Ghost fields `processed`
(the items handed to the processing function, in invocation order) and
`posted` (all items ever posted, in order) record the observable history.

The timer is embedded as a state record mirroring its fields; `join` on the
worker thread is `Option`-valued, `none` modelling a join that blocks forever
because the worker's loop condition never lets it exit.  Time points and
durations are modelled as naturals.
-/

namespace Enh

/-- The tri-state result type of error_base.enh.h: GOOD = 1, ERROR = 0,
PREV_ERR = -1; `operator!` is true exactly on the non-GOOD values. -/
inductive Tristate
  | GOOD
  | ERROR
  | PREV_ERR
deriving DecidableEq

/-- Program counter of the worker body `queued_process::queue_exec_process`,
cut at lock boundaries and shared-variable accesses:
* `outerCheck`   : about to evaluate `while (!QueueStop.load())`;
* `waitCheck`    : about to evaluate `while (!isUpdated.load())`;
* `waitBlock`    : blocked in `cvQueue.wait(lock)`; a step from here is a
  wakeup (notified or spurious), which also takes the `QueuedMessage.empty()`
  snapshot under the reacquired lock;
* `waitTest e`   : after unlock, evaluating
  `if (!isUpdated && QueueStop && empty) return GOOD` with snapshot `e`;
* `clearUpdated` : executing `isUpdated = false`;
* `computeStop`  : under the lock, `stopNow = QueuedMessage.empty() || QueueStop`;
* `innerCheck b` : about to evaluate `while (!stopNow)` with `stopNow = b`;
* `popItem`      : under the lock, `front = QueuedMessage.front(); QueuedMessage.pop()`;
* `processItem`  : outside the lock, `ret = msgProc(front); if (!ret) return ERROR`;
* `recompute`    : under the lock, `stopNow = QueuedMessage.empty()`;
* `done r`       : the worker function has returned `r`. -/
inductive WorkerPC
  | outerCheck
  | waitCheck
  | waitBlock
  | waitTest (emptySnap : Bool)
  | clearUpdated
  | computeStop
  | innerCheck (stopNow : Bool)
  | popItem
  | processItem
  | recompute
  | done (r : Tristate)
deriving DecidableEq

/-- State of one `queued_process` instance together with its worker thread.
`queue`, `isUpdated`, `queueStop`, `queueActive` are the members
`QueuedMessage`, `isUpdated`, `QueueStop`, `isQueueActive`; `hasProc` records
whether `msgProc` is set; `pending` is the worker's local `front` between the
pop and the invocation; `spawnCount` counts threads ever spawned (ghost);
`processed` and `posted` are ghost histories. -/
structure QueueState where
  queue : List Nat
  isUpdated : Bool
  queueStop : Bool
  queueActive : Bool
  hasProc : Bool
  pending : Option Nat
  pc : WorkerPC
  spawnCount : Nat
  processed : List Nat
  posted : List Nat
deriving DecidableEq

/-- One atomic step of the worker body `queue_exec_process` (lines 195-237 of
queued_process.enh.h), parametrised by the registered processing function.
The two `done .ERROR` fallbacks for an empty queue at `popItem` and an empty
`pending` at `processItem` are unreachable in runs from a proper initial
state; they stand in for the undefined behaviour of `front()` on an empty
queue. -/
def workerStep (f : Nat → Tristate) (s : QueueState) : QueueState :=
  match s.pc with
  | .outerCheck =>
      if s.queueStop then { s with pc := .done .GOOD } else { s with pc := .waitCheck }
  | .waitCheck =>
      if s.isUpdated then { s with pc := .clearUpdated } else { s with pc := .waitBlock }
  | .waitBlock => { s with pc := .waitTest s.queue.isEmpty }
  | .waitTest emptySnap =>
      if !s.isUpdated && s.queueStop && emptySnap then { s with pc := .done .GOOD }
      else { s with pc := .waitCheck }
  | .clearUpdated => { s with isUpdated := false, pc := .computeStop }
  | .computeStop => { s with pc := .innerCheck (s.queue.isEmpty || s.queueStop) }
  | .innerCheck stopNow =>
      if stopNow then { s with pc := .outerCheck } else { s with pc := .popItem }
  | .popItem =>
      match s.queue with
      | [] => { s with pc := .done .ERROR }
      | x :: rest => { s with queue := rest, pending := some x, pc := .processItem }
  | .processItem =>
      match s.pending with
      | none => { s with pc := .done .ERROR }
      | some x =>
          if f x = .GOOD then
            { s with pending := none, processed := s.processed ++ [x], pc := .recompute }
          else
            { s with pending := none, processed := s.processed ++ [x], pc := .done .ERROR }
  | .recompute => { s with pc := .innerCheck s.queue.isEmpty }
  | .done _ => s

/-- `start_queue_process` (lines 293-307): returns ERROR when no processor is
registered or the queue is already running; otherwise clears `QueueStop`,
spawns the worker (pc reset to the top of `queue_exec_process`) and marks the
queue active. -/
def start_queue_process (s : QueueState) : Tristate × QueueState :=
  if !s.hasProc then (.ERROR, s)
  else if s.queueActive then (.ERROR, s)
  else (.GOOD,
    { s with queueStop := false, queueActive := true, pending := none,
             pc := .outerCheck, spawnCount := s.spawnCount + 1 })

/-- The body of `WaitForQueueStop` (lines 361-374) after the `join` returned:
`isQueueActive = false; QueueStop = false;` and the backlog is cleared.  The
clearing statement in the source (line 371) is the documented syntax defect
(missing `()`, acknowledged in the 1.3.1.7 release notes); its intended
effect, adopted by the spec, is modelled. -/
def waitForQueueStop (s : QueueState) : QueueState :=
  { s with queueActive := false, queueStop := false, queue := [] }

/-- Events of an execution: one worker step, `postMessage x` (push + set
`isUpdated` + notify, lines 324-335), `stopQueue` (set `QueueStop` + notify,
lines 342-346), the post-join body of `WaitForQueueStop`, and
`start_queue_process` (its state effect). -/
inductive Label
  | work
  | post (x : Nat)
  | stop
  | clear
  | startL
deriving DecidableEq

/-- Effect of one event on the queue state. -/
def step (f : Nat → Tristate) (s : QueueState) : Label → QueueState
  | .work => workerStep f s
  | .post x => { s with queue := s.queue ++ [x], posted := s.posted ++ [x], isUpdated := true }
  | .stop => { s with queueStop := true }
  | .clear => waitForQueueStop s
  | .startL => (start_queue_process s).2

/-- Run a schedule of events from a state. -/
def run (f : Nat → Tristate) (s : QueueState) : List Label → QueueState
  | [] => s
  | l :: ls => run f (step f s l) ls

/-- A freshly constructed `queued_process` with a processing function
registered (the `explicit queued_process(processing_method)` constructor,
lines 256-264): flags cleared, empty backlog, no worker thread. -/
def freshQueue : QueueState :=
  { queue := [], isUpdated := false, queueStop := false, queueActive := false,
    hasProc := true, pending := none, pc := .done .GOOD, spawnCount := 0,
    processed := [], posted := [] }

/-- A queue on which `start_queue_process` has succeeded: the running initial
state used by the claims about a live worker. -/
def initQ : QueueState := (start_queue_process freshQueue).2

/-- The worker's local `front` variable as a list (empty when no pop is in
flight). -/
def pendList (s : QueueState) : List Nat := s.pending.toList

/-- History invariant of a clear-free execution: every posted item is either
already handed to the processing function, held in the worker's local `front`,
or still in the backlog, with order preserved. -/
def drainEq (s : QueueState) : Prop :=
  s.processed ++ (pendList s ++ s.queue) = s.posted

/-- Conservation invariant that survives backlog clearing and restarts: the
handed-over, in-flight and backlogged items always form a sublist of the
posted history. -/
def drainSub (s : QueueState) : Prop :=
  List.Sublist (s.processed ++ (pendList s ++ s.queue)) s.posted

/-- The worker holds a popped item exactly while it is at `processItem`. -/
def pendingOk (s : QueueState) : Prop :=
  (s.pending = none ∧ s.pc ≠ WorkerPC.processItem) ∨
    (∃ x, s.pending = some x ∧ s.pc = WorkerPC.processItem)

/-- Schedules whose labels are only worker steps, posts and stop requests
(no concurrent `WaitForQueueStop` or restart). -/
def basicLabel : Label → Bool
  | .work => true
  | .post _ => true
  | .stop => true
  | _ => false

/-- A processing function that always continues. -/
def goodProc : Nat → Tristate := fun _ => .GOOD

/-- The posting prefix of a schedule: `postMessage x1; ...; postMessage xn`. -/
def postsOf (xs : List Nat) : List Label := xs.map Label.post

/-- The interleaving refuting the graceful-drain contract: one item is posted,
the worker advances to just past `isUpdated = false` (line 214), then
`stopQueue` lands before the worker evaluates
`stopNow = QueuedMessage.empty() || QueueStop.load()` (line 218). -/
def c1Trace : List Label :=
  [.post 1, .work, .work, .work, .stop, .work, .work, .work]

/-- Final state of the graceful-drain refutation. -/
def c1End : QueueState := run goodProc initQ c1Trace

/-- The scenario processing function of the Fatal claims: Fatal exactly on
item 2. -/
def fatalOn2 : Nat → Tristate := fun x => if x = 2 then .ERROR else .GOOD

/-- Post [1,2,3], then let the worker run alone until it hits the Fatal
result on item 2 and exits. -/
def c5Trace : List Label :=
  [.post 1, .post 2, .post 3] ++ List.replicate 11 .work

/-- State after the worker exits on the Fatal result. -/
def c5End : QueueState := run fatalOn2 initQ c5Trace

/-- State after a subsequent `WaitForQueueStop` joined the dead worker. -/
def c5Joined : QueueState := waitForQueueStop c5End

/-- First call to `start_queue_process` on a fresh instance. -/
def qStart1 : Tristate × QueueState := start_queue_process freshQueue

/-- Second call to `start_queue_process`, without an intervening stop. -/
def qStart2 : Tristate × QueueState := start_queue_process qStart1.2

/-- State of one `enh::timer` instance.  `elapsed`, `stopTimer`,
`isTimerActive` are the members `elapsed_cycles`, `stopTimer`,
`isTimerActive`; `threadJoinable` is `timerThread.joinable()` (the thread
object owns a thread, running or finished); `workerRunning` is whether the
loop of that thread is still executing; `spawnCount` is ghost. -/
structure TimerState where
  elapsed : Nat
  stopTimer : Bool
  isTimerActive : Bool
  threadJoinable : Bool
  workerRunning : Bool
  spawnCount : Nat
deriving DecidableEq

/-- `timerThread.join()`: returns once the worker exits.  The worker's loop
(lines 250-260) runs `while (!stopTimer.load())`, so a join of a live worker
returns (after its current period) exactly when `stopTimer` is set; joining a
live worker whose stop flag is clear blocks forever, modelled as `none`. -/
def timerJoinThread (s : TimerState) : Option TimerState :=
  if s.workerRunning && !s.stopTimer then none
  else some { s with workerRunning := false, threadJoinable := false }

/-- `isTimerCounting` (lines 411-428): when `isTimerActive` and the thread
object is joinable it joins the thread (believing it already finished),
clears `isTimerActive` and reports false; otherwise it reports
`isTimerActive`. -/
def isTimerCounting (s : TimerState) : Option (Bool × TimerState) :=
  if s.isTimerActive then
    if s.threadJoinable then
      (timerJoinThread s).map (fun t => (false, { t with isTimerActive := false }))
    else some (true, s)
  else some (false, s)

/-- The spawning tail of `start_timer` (lines 443-448): clear the stop flag,
reset `elapsed_cycles` to 0, allocate the thread, mark active. -/
def startFresh (s : TimerState) : TimerState :=
  { s with stopTimer := false, elapsed := 0, threadJoinable := true,
           workerRunning := true, isTimerActive := true,
           spawnCount := s.spawnCount + 1 }

/-- `start_timer` (lines 439-449): returns false when `isTimerCounting`
reports a running timer, otherwise spawns; `none` when the embedded
`isTimerCounting` blocks in its join. -/
def startTimer (s : TimerState) : Option (Bool × TimerState) :=
  match isTimerCounting s with
  | none => none
  | some (true, t) => some (false, t)
  | some (false, t) => some (true, startFresh t)

/-- The member state established by the constructor body (lines 272-279)
just before its call to `start_timer`. -/
def timerPre : TimerState :=
  { elapsed := 0, stopTimer := false, isTimerActive := false,
    threadJoinable := false, workerRunning := false, spawnCount := 0 }

/-- The state of a default-constructed timer, i.e. after the constructor's
`start_timer()` call. -/
def timerConstructed : TimerState := startFresh timerPre

/-- `timer::wait(expected)` (lines 302-315): start the timer when
`isTimerActive` is false, then block on `cvTimer` until
`elapsed_cycles >= expected` and return `elapsed_cycles - expected` read under
the same lock hold.  The worker only ever increments `elapsed_cycles`, so the
count observed at the return moment is some `c >= max(entry count, expected)`;
the nondeterministic extra ticks gained while blocked (scheduler delay) are
the parameter `d`. -/
def timerWait (s : TimerState) (expected d : Nat) : Nat × TimerState :=
  let s1 := if s.isTimerActive then s else startFresh s
  let c := max s1.elapsed expected + d
  (c - expected, { s1 with elapsed := c })

/-- Local state of the timer worker `loop` (lines 250-260): `timer_start`,
`timer_next` and the shared `elapsed_cycles`, with time points as naturals. -/
structure TimerLoopState where
  timer_start : Nat
  timer_next : Nat
  elapsed_cycles : Nat
deriving DecidableEq

/-- `single_period` (lines 234-243): sleep until `timer_next`, then under the
lock increment `elapsed_cycles` and advance `timer_next` by one period. -/
def single_period (period : Nat) (s : TimerLoopState) : TimerLoopState :=
  { s with elapsed_cycles := s.elapsed_cycles + 1,
           timer_next := s.timer_next + period }

/-- The initialisation of `loop` (lines 252-255): zero the cycle count, take
`timer_start = now`, set `timer_next = timer_start + period`. -/
def loopInit (now period : Nat) : TimerLoopState :=
  { timer_start := now, timer_next := now + period, elapsed_cycles := 0 }

/-- The timer worker after `k` completed periods. -/
def loopRun (period now : Nat) : Nat → TimerLoopState
  | 0 => loopInit now period
  | k + 1 => single_period period (loopRun period now k)

/-- The time units the `timer` template accepts. -/
inductive TimeUnit
  | nanoseconds
  | microseconds
  | milliseconds
  | seconds
  | minutes
  | hours
deriving DecidableEq

/-- `isGoodTimer_v` (lines 68-85): the units an object may be created with. -/
def isGoodTimer_v : TimeUnit → Bool
  | .milliseconds => true
  | .seconds => true
  | .minutes => true
  | .hours => true
  | _ => false

/-- `isGoodTimerType_v` (lines 103-110): the units the template may be
instantiated with. -/
def isGoodTimerType_v : TimeUnit → Bool
  | .nanoseconds => true
  | .microseconds => true
  | u => isGoodTimer_v u

/-- The class-level static assertions (lines 162-165): the unit must be a
time type, and a millisecond period below 5 is rejected. -/
def timerTemplateOk (period : Nat) (u : TimeUnit) : Bool :=
  isGoodTimerType_v u && !(decide (u = TimeUnit.milliseconds) && decide (period < 5))

/-- Whether a `timer<period, unit>` object can be constructed: the template
asserts plus the constructor's `isGoodTimer_v` assert (line 274). -/
def timerConstructionOk (period : Nat) (u : TimeUnit) : Bool :=
  timerTemplateOk period u && isGoodTimer_v u

end Enh

namespace Enh

theorem run_append (f : Nat → Tristate) (s : QueueState) (L1 L2 : List Label) :
    run f s (L1 ++ L2) = run f (run f s L1) L2 := by
  induction L1 generalizing s with
  | nil => rfl
  | cons l ls ih => simp [run, ih]

theorem pendingOk_step (f : Nat → Tristate) (s : QueueState) (l : Label)
    (h : pendingOk s) : pendingOk (step f s l) := by
  obtain ⟨q, u, st, a, hpr, pend, pc, sc, prc, po⟩ := s
  cases l with
  | work =>
      cases pc <;> dsimp only [step, workerStep] <;> (repeat' split) <;>
        simp_all [pendingOk]
  | post x => simpa [step, pendingOk] using h
  | stop => simpa [step, pendingOk] using h
  | clear => simpa [step, waitForQueueStop, pendingOk] using h
  | startL =>
      dsimp only [step, start_queue_process]
      split_ifs <;> simp_all [pendingOk]

theorem drainEq_step (f : Nat → Tristate) (s : QueueState) (l : Label)
    (hb : basicLabel l = true) (hE : drainEq s) (hP : pendingOk s) :
    drainEq (step f s l) := by
  obtain ⟨q, u, st, a, hpr, pend, pc, sc, prc, po⟩ := s
  cases l with
  | work =>
      cases pc <;> dsimp only [step, workerStep] <;> (repeat' split) <;>
        simp_all [drainEq, pendingOk, pendList]
  | post x =>
      dsimp only [step]
      unfold drainEq pendList at hE ⊢
      dsimp only at hE ⊢
      simp only [← List.append_assoc] at hE ⊢
      simp [hE]
  | stop => simpa [step, drainEq, pendList] using hE
  | clear => simp [basicLabel] at hb
  | startL => simp [basicLabel] at hb

end Enh

namespace Enh

theorem drainSub_step (f : Nat → Tristate) (s : QueueState) (l : Label)
    (hS : drainSub s) : drainSub (step f s l) := by
  obtain ⟨q, u, st, a, hpr, pend, pc, sc, prc, po⟩ := s
  cases l with
  | work =>
      cases pc <;> dsimp only [step, workerStep] <;> (repeat' split) <;>
        first
          | (simp_all [drainSub, pendList]; done)
          | (simp_all [drainSub, pendList]
             exact ((List.sublist_append_right _ _).append_left prc).trans hS)
  | post x =>
      unfold drainSub pendList at hS ⊢
      dsimp only [step] at hS ⊢
      simp only [← List.append_assoc] at hS ⊢
      exact hS.append (List.Sublist.refl [x])
  | stop => simpa [drainSub, step, pendList] using hS
  | clear =>
      unfold drainSub pendList at hS ⊢
      dsimp only [step, waitForQueueStop] at hS ⊢
      exact (((List.nil_sublist q).append_left pend.toList).append_left prc).trans hS
  | startL =>
      dsimp only [step, start_queue_process]
      split_ifs with h1 h2
      · exact hS
      · exact hS
      · unfold drainSub pendList at hS ⊢
        dsimp only at hS ⊢
        exact (((List.nil_sublist pend.toList).append (List.Sublist.refl q)).append_left prc).trans hS

theorem posted_sublist_step (f : Nat → Tristate) (s : QueueState) (l : Label) :
    List.Sublist s.posted ((step f s l).posted) := by
  obtain ⟨q, u, st, a, hpr, pend, pc, sc, prc, po⟩ := s
  cases l with
  | work =>
      cases pc <;> dsimp only [step, workerStep] <;> (repeat' split) <;>
        exact List.Sublist.refl _
  | post x => exact List.sublist_append_left _ _
  | stop => exact List.Sublist.refl _
  | clear => exact List.Sublist.refl _
  | startL =>
      dsimp only [step, start_queue_process]
      split_ifs <;> exact List.Sublist.refl _

theorem posted_sublist_run (f : Nat → Tristate) (L : List Label) (s : QueueState) :
    List.Sublist s.posted ((run f s L).posted) := by
  induction L generalizing s with
  | nil => exact List.Sublist.refl _
  | cons l ls ih => exact (posted_sublist_step f s l).trans (ih _)

theorem pendingOk_run (f : Nat → Tristate) (L : List Label) (s : QueueState)
    (h : pendingOk s) : pendingOk (run f s L) := by
  induction L generalizing s with
  | nil => exact h
  | cons l ls ih => exact ih _ (pendingOk_step f s l h)

theorem drainEq_run (f : Nat → Tristate) (L : List Label) (s : QueueState)
    (hb : ∀ l ∈ L, basicLabel l = true) (hE : drainEq s) (hP : pendingOk s) :
    drainEq (run f s L) := by
  induction L generalizing s with
  | nil => exact hE
  | cons l ls ih =>
      exact ih _ (fun l' hl' => hb l' (List.mem_cons_of_mem _ hl'))
        (drainEq_step f s l (hb l (List.mem_cons_self _ _)) hE hP)
        (pendingOk_step f s l hP)

theorem drainSub_run (f : Nat → Tristate) (L : List Label) (s : QueueState)
    (hS : drainSub s) : drainSub (run f s L) := by
  induction L generalizing s with
  | nil => exact hS
  | cons l ls ih => exact ih _ (drainSub_step f s l hS)

theorem processed_pending_step (f : Nat → Tristate) (s : QueueState) (l : Label)
    (hb : basicLabel l = true) (hP : pendingOk s) :
    List.Sublist (s.processed ++ pendList s)
      ((step f s l).processed ++ pendList (step f s l)) := by
  obtain ⟨q, u, st, a, hpr, pend, pc, sc, prc, po⟩ := s
  cases l with
  | work =>
      rcases hP with ⟨hp, hpc⟩ | ⟨x, hp, hpc⟩
      · dsimp only at hp
        subst hp
        cases pc <;> dsimp only [step, workerStep] <;> (repeat' split) <;>
          first
            | exact List.Sublist.refl _
            | simp [pendList]
      · dsimp only at hp hpc
        subst hp
        subst hpc
        dsimp only [step, workerStep]
        split <;> simp [pendList]
  | post x => exact List.Sublist.refl _
  | stop => exact List.Sublist.refl _
  | clear => simp [basicLabel] at hb
  | startL => simp [basicLabel] at hb

theorem processed_pending_done (f : Nat → Tristate) (L : List Label)
    (s : QueueState) (r : Tristate)
    (hb : ∀ l ∈ L, basicLabel l = true) (hP : pendingOk s)
    (hdone : (run f s L).pc = .done r) :
    List.Sublist (s.processed ++ pendList s) ((run f s L).processed) := by
  induction L generalizing s with
  | nil =>
      rcases hP with ⟨hp, _⟩ | ⟨x, hp, hpc⟩
      · simp [run, pendList, hp]
      · simp only [run] at hdone
        rw [hpc] at hdone
        exact absurd hdone (by simp)
  | cons l ls ih =>
      exact (processed_pending_step f s l (hb l (List.mem_cons_self _ _)) hP).trans
        (ih (step f s l) (fun l' hl' => hb l' (List.mem_cons_of_mem _ hl'))
          (pendingOk_step f s l hP) hdone)

end Enh

namespace Enh

/-- Claim C1 (code bug): the graceful-drain contract of `stopQueue` fails.
In the interleaving where one item has been posted and `stopQueue` lands
after the worker clears `isUpdated` (line 214) but before it computes
`stopNow = QueuedMessage.empty() || QueueStop.load()` (line 218), the worker
sees `stopNow = true`, skips the drain loop, re-tests `!QueueStop` and exits
returning GOOD — with the backlog still holding the item posted before the
stop request and the processed history empty. -/
theorem c1_stop_request_abandons_backlog :
    c1End.pc = .done .GOOD ∧ c1End.processed = [] ∧
    c1End.queue = [1] ∧ c1End.posted = [1] := by decide

/-- Claim C4: at-most-once delivery.  Along any schedule of worker steps,
posts (from any number of threads), stop requests, clears and restarts,
the invocation history is a sublist of the posted history, so distinct
posted items are never handed to the processing function twice. -/
theorem c4_at_most_once (f : Nat → Tristate) (L : List Label)
    (hnodup : ((run f freshQueue L).posted).Nodup) :
    ((run f freshQueue L).processed).Nodup := by
  have hS : drainSub (run f freshQueue L) :=
    drainSub_run f L freshQueue (List.Sublist.refl _)
  exact hnodup.sublist ((List.sublist_append_left _ _).trans hS)

/-- Claim C4 witness: a concrete execution (start, two posts, a full drain)
with distinct posted items has a duplicate-free invocation history. -/
theorem c4_at_most_once_witness :
    ((run goodProc freshQueue
        ([.startL, .post 1, .post 2] ++ List.replicate 12 .work)).posted).Nodup ∧
    ((run goodProc freshQueue
        ([.startL, .post 1, .post 2] ++ List.replicate 12 .work)).processed).Nodup :=
  ⟨by decide, c4_at_most_once goodProc _ (by decide)⟩

end Enh

namespace Enh

/-- Claim C5 counterexample: the queue is not permanently stopped after a
Fatal result.  After the worker exits with ERROR on the Fatal item, a
`WaitForQueueStop` joins the dead worker and a further `start_queue_process`
succeeds and spawns a second worker — a restart, contradicting the claimed
terminal condition. -/
theorem c5_restart_after_fatal :
    c5End.pc = .done .ERROR ∧
    (start_queue_process c5Joined).1 = .GOOD ∧
    (start_queue_process c5Joined).2.queueActive = true ∧
    (start_queue_process c5Joined).2.spawnCount = 2 := by decide

/-- Claim C5 (amended): posting [1,2,3] with a processing function that is
Fatal on 2, the worker invokes the function on exactly [1,2] (so the
GOOD-completed sequence is [1]), exits immediately with ERROR, and item 3 is
never delivered; `start_queue_process` fails while the instance has not been
joined, but after `WaitForQueueStop` a restart succeeds; the worker's ERROR
return value is discarded by `std::thread`, so no "last run failed" query
exists. -/
theorem c5_fatal_scenario :
    c5End.pc = .done .ERROR ∧
    c5End.processed = [1, 2] ∧
    c5End.processed.filter (fun x => decide (fatalOn2 x = .GOOD)) = [1] ∧
    3 ∉ c5End.processed ∧
    c5End.queue = [3] ∧
    (start_queue_process c5End).1 = .ERROR := by decide

/-- Claim C8 (code bug): for the queue, a second `start_queue_process`
without an intervening stop returns ERROR, changes nothing and the spawn
count stays 1; but for the timer the second `start_timer` does not return
false: `isTimerCounting` finds the live thread joinable and joins it, which
blocks for as long as the worker runs (`none` in the model). -/
theorem c8_second_start :
    qStart1.1 = .GOOD ∧ qStart1.2.spawnCount = 1 ∧
    qStart2.1 = .ERROR ∧ qStart2.2 = qStart1.2 ∧
    startTimer timerConstructed = none := by decide

/-- Claim C10: the default constructor itself starts the background worker:
from the pre-start member state, `start_timer` succeeds, and the constructed
timer has a live worker, a cleared stop flag, zero elapsed cycles and exactly
one spawned thread, before any explicit call. -/
theorem c10_constructor_starts_worker :
    startTimer timerPre = some (true, timerConstructed) ∧
    timerConstructed.isTimerActive = true ∧
    timerConstructed.stopTimer = false ∧
    timerConstructed.elapsed = 0 ∧
    timerConstructed.workerRunning = true ∧
    timerConstructed.spawnCount = 1 := by decide

/-- Claim C7: the timer worker-loop invariant: after initialisation and after
every tick, `timer_next` equals `timer_start + period * (elapsed_cycles + 1)`
— each tick advances `timer_next` by exactly one period as it increments
`elapsed_cycles`. -/
theorem c7_next_wake_invariant (period now k : Nat) :
    (loopRun period now k).timer_next =
      (loopRun period now k).timer_start +
        period * ((loopRun period now k).elapsed_cycles + 1) := by
  induction k with
  | zero => simp [loopRun, loopInit]
  | succ k ih =>
      simp only [loopRun, single_period]
      rw [ih]
      ring

/-- Claim C6: `wait(k)` returns only with an elapsed-cycle count at least
`k`; the value returned equals that count minus `k` at the moment of return;
and when the timer is not active on entry, the worker is started first
(one fresh spawn, timer active). -/
theorem c6_wait_overshoot (s : TimerState) (k d : Nat) :
    k ≤ (timerWait s k d).2.elapsed ∧
    (timerWait s k d).1 = (timerWait s k d).2.elapsed - k ∧
    (s.isTimerActive = false →
      (timerWait s k d).2.spawnCount = s.spawnCount + 1 ∧
      (timerWait s k d).2.isTimerActive = true) := by
  unfold timerWait
  refine ⟨?_, rfl, ?_⟩
  · exact le_trans (le_max_right _ _) (Nat.le_add_right _ _)
  · intro h
    simp [h, startFresh]

/-- Claim C6 witness: waiting for cycle 3 with 2 extra ticks of scheduler
delay on a not-yet-active timer. -/
theorem c6_wait_overshoot_witness :
    timerPre.isTimerActive = false ∧
    3 ≤ (timerWait timerPre 3 2).2.elapsed ∧
    (timerWait timerPre 3 2).1 = (timerWait timerPre 3 2).2.elapsed - 3 ∧
    (timerWait timerPre 3 2).2.spawnCount = timerPre.spawnCount + 1 :=
  ⟨rfl, (c6_wait_overshoot timerPre 3 2).1, (c6_wait_overshoot timerPre 3 2).2.1,
    ((c6_wait_overshoot timerPre 3 2).2.2 rfl).1⟩

/-- Claim C9: a millisecond timer with period below 5 is rejected by the
construction-time assertions, while for seconds, minutes and hours every
period passes them. -/
theorem c9_precision_floor (p : Nat) (hp : p < 5) :
    timerConstructionOk p .milliseconds = false ∧
    (∀ q : Nat, timerConstructionOk q .seconds = true ∧
      timerConstructionOk q .minutes = true ∧ timerConstructionOk q .hours = true) := by
  constructor
  · simp [timerConstructionOk, timerTemplateOk, isGoodTimer_v, isGoodTimerType_v, hp]
  · intro q
    exact ⟨rfl, rfl, rfl⟩

/-- Claim C9 witness: period 3 in milliseconds is rejected; period 7 in
seconds is accepted. -/
theorem c9_precision_floor_witness :
    (3 < 5) ∧ timerConstructionOk 3 .milliseconds = false ∧
    timerConstructionOk 7 .seconds = true :=
  ⟨by decide, (c9_precision_floor 3 (by decide)).1,
    ((c9_precision_floor 3 (by decide)).2 7).1⟩

end Enh

namespace Enh

theorem run_postsOf (f : Nat → Tristate) (xs : List Nat) (s : QueueState) :
    run f s (postsOf xs) =
      { s with queue := s.queue ++ xs, posted := s.posted ++ xs,
               isUpdated := (s.isUpdated || !xs.isEmpty) } := by
  induction xs generalizing s with
  | nil => simp [postsOf, run]
  | cons x rest ih =>
      simp only [postsOf, List.map_cons, run, step]
      rw [show List.map Label.post rest = postsOf rest from rfl, ih]
      simp [List.append_assoc]

theorem drainRun (f : Nat → Tristate) (hgood : ∀ x, f x = Tristate.GOOD)
    (xs : List Nat) :
    ∀ (u st a hp : Bool) (sc : Nat) (prc po : List Nat), xs ≠ [] →
      run f ⟨xs, u, st, a, hp, none, .innerCheck false, sc, prc, po⟩
        (List.replicate (4 * xs.length) .work) =
      ⟨[], u, st, a, hp, none, .innerCheck true, sc, prc ++ xs, po⟩ := by
  induction xs with
  | nil => intro _ _ _ _ _ _ _ hne; cases hne rfl
  | cons x rest ih =>
      intro u st a hp sc prc po _
      cases rest with
      | nil =>
          simp [List.replicate, run, step, workerStep, hgood]
      | cons y rest2 =>
          have harith : 4 * (x :: y :: rest2).length = 4 + 4 * (y :: rest2).length := by
            simp [List.length_cons]
            ring
          rw [harith, List.replicate_add, run_append]
          have h4 : run f ⟨x :: y :: rest2, u, st, a, hp, none, .innerCheck false, sc, prc, po⟩
              (List.replicate 4 .work) =
              ⟨y :: rest2, u, st, a, hp, none, .innerCheck false, sc, prc ++ [x], po⟩ := by
            simp [List.replicate, run, step, workerStep, hgood]
          rw [h4, ih u st a hp sc (prc ++ [x]) po (by simp)]
          simp

end Enh

namespace Enh

theorem initQ_eq :
    initQ = ⟨[], false, false, true, true, none, .outerCheck, 1, [], []⟩ := by decide

/-- Claim C3: FIFO order.  Items x1..xn posted before the worker runs, with a
processing function that always continues, are handed to the processing
function exactly in posting order: after the posts and the worker's drain the
invocation history equals the posted sequence and the backlog is empty. -/
theorem c3_fifo (f : Nat → Tristate) (xs : List Nat)
    (hgood : ∀ x, f x = Tristate.GOOD) (hne : xs ≠ []) :
    (run f initQ (postsOf xs ++ List.replicate (4 + 4 * xs.length) .work)).processed = xs ∧
    (run f initQ (postsOf xs ++ List.replicate (4 + 4 * xs.length) .work)).queue = [] := by
  obtain ⟨x, rest, rfl⟩ := List.exists_cons_of_ne_nil hne
  have hA : run f initQ (postsOf (x :: rest)) =
      ⟨x :: rest, true, false, true, true, none, .outerCheck, 1, [], x :: rest⟩ := by
    rw [run_postsOf, initQ_eq]
    rfl
  have h4 : run f ⟨x :: rest, true, false, true, true, none, .outerCheck, 1, [], x :: rest⟩
      (List.replicate 4 .work) =
      ⟨x :: rest, false, false, true, true, none, .innerCheck false, 1, [], x :: rest⟩ := by
    simp [List.replicate, run, step, workerStep]
  rw [run_append, hA, List.replicate_add, run_append, h4,
    drainRun f hgood (x :: rest) false false true true 1 [] (x :: rest) (by simp)]
  exact ⟨rfl, rfl⟩

/-- Claim C3 witness: posting [1,2,3] before the worker runs yields the
invocation history [1,2,3]. -/
theorem c3_fifo_witness :
    (∀ x, goodProc x = Tristate.GOOD) ∧ ([1, 2, 3] : List Nat) ≠ [] ∧
    (run goodProc initQ
      (postsOf [1, 2, 3] ++ List.replicate (4 + 4 * [1, 2, 3].length) .work)).processed
        = [1, 2, 3] :=
  ⟨fun _ => rfl, by decide, (c3_fifo goodProc [1, 2, 3] (fun _ => rfl) (by decide)).1⟩

end Enh

namespace Enh

/-- Claim C2: drain completeness of `safe_join`.  Model of
`safe_join(ns) = WaitForQueueEmpty(ns); stopQueue(); WaitForQueueStop()`:
`pre` is the schedule before `safe_join` begins, `mA` the interleaving up to
the poll of `WaitForQueueEmpty` that observes an empty backlog, `mB` the
interleaving until the `join` inside `WaitForQueueStop` returns (worker at
`done r`).  Then at return the backlog is empty, the worker has exited, and
every item posted before `safe_join` began was handed to the processing
function (in order).  The schedules contain only worker steps, posts and
stop requests (no concurrent join/clear or restart). -/
theorem c2_safe_join_drains (f : Nat → Tristate) (r : Tristate)
    (pre mA mB : List Label)
    (hgood : ∀ x, f x = Tristate.GOOD)
    (hbPre : ∀ l ∈ pre, basicLabel l = true)
    (hbA : ∀ l ∈ mA, basicLabel l = true)
    (hbB : ∀ l ∈ mB, basicLabel l = true)
    (hempty : (run f (run f initQ pre) mA).queue = [])
    (hdone : (run f (step f (run f (run f initQ pre) mA) .stop) mB).pc = .done r) :
    (waitForQueueStop (run f (step f (run f (run f initQ pre) mA) .stop) mB)).queue = [] ∧
    (waitForQueueStop (run f (step f (run f (run f initQ pre) mA) .stop) mB)).pc = .done r ∧
    List.Sublist ((run f initQ pre).posted)
      ((waitForQueueStop (run f (step f (run f (run f initQ pre) mA) .stop) mB)).processed) := by
  have hP0 : pendingOk initQ := Or.inl ⟨rfl, by decide⟩
  have hE0 : drainEq initQ := rfl
  have hPpre : pendingOk (run f initQ pre) := pendingOk_run f pre _ hP0
  have hP1 : pendingOk (run f (run f initQ pre) mA) := pendingOk_run f mA _ hPpre
  have hE1 : drainEq (run f (run f initQ pre) mA) :=
    drainEq_run f mA _ hbA (drainEq_run f pre _ hbPre hE0 hP0) hPpre
  have hposted : List.Sublist ((run f initQ pre).posted)
      ((run f (run f initQ pre) mA).posted) := posted_sublist_run f mA _
  have heq : (run f (run f initQ pre) mA).posted =
      (run f (run f initQ pre) mA).processed ++ pendList (run f (run f initQ pre) mA) := by
    have h := hE1
    unfold drainEq at h
    rw [hempty] at h
    simpa using h.symm
  have hkey := processed_pending_done f mB (step f (run f (run f initQ pre) mA) .stop) r hbB
    (pendingOk_step f _ .stop hP1) hdone
  refine ⟨rfl, hdone, ?_⟩
  have hchain : List.Sublist ((run f initQ pre).posted)
      ((run f (run f initQ pre) mA).processed ++ pendList (run f (run f initQ pre) mA)) := by
    rw [← heq]
    exact hposted
  exact hchain.trans hkey

/-- Claim C2 witness: two items posted, the worker drains them, the poll sees
an empty backlog, stop is requested, one more worker step exits the loop, and
both items appear in the invocation history at the join. -/
theorem c2_safe_join_drains_witness :
    (run goodProc (run goodProc initQ [.post 1, .post 2]) (List.replicate 13 .work)).queue = [] ∧
    (run goodProc (step goodProc (run goodProc (run goodProc initQ [.post 1, .post 2])
      (List.replicate 13 .work)) .stop) [.work]).pc = .done .GOOD ∧
    List.Sublist ((run goodProc initQ [.post 1, .post 2]).posted)
      ((waitForQueueStop (run goodProc (step goodProc (run goodProc
        (run goodProc initQ [.post 1, .post 2]) (List.replicate 13 .work)) .stop)
          [.work])).processed) :=
  ⟨by decide, by decide,
    (c2_safe_join_drains goodProc .GOOD [.post 1, .post 2] (List.replicate 13 .work) [.work]
      (fun _ => rfl) (by decide) (by decide) (by decide) (by decide) (by decide)).2.2⟩

end Enh
